import Mathlib

/-!
Shallow embedding of the MLH repository's entity-marshalling and
query-compilation engine (src/MLH/utils.py and src/MLH/Farmbot.py).

Python values are modelled by the inductive type Value below; Python
exceptions by PyErr together with the Except monad.  Datetimes are
modelled as integers counting microseconds since the Unix epoch
(1970-01-01T00:00:00Z); timedeltas as integers of microseconds.
Python floats are modelled as exact rationals: every numeric literal
appearing in the claims is compared exactly, and none of the claims
depends on IEEE-754 rounding.
-/

namespace MLH

/-- Python runtime values, as far as the engine manipulates them.
Dictionaries are insertion-ordered association lists with string keys
(the engine only ever uses string keys on the dictionaries it builds). -/
inductive Value where
  | none
  | bool (b : Bool)
  | int (n : Int)
  | float (q : ℚ)
  | str (s : String)
  | dt (micros : Int)
  | list (l : List Value)
  | dict (d : List (String × Value))
  | obj (store : List (String × Value))
deriving Repr

/-- Structural test for the None value. -/
def isVNone : Value → Bool
  | .none => true
  | _ => false

/-- The membership test val in (None, "None") of the optional-factory
lambda. -/
def isAbsentTok : Value → Bool
  | .none => true
  | .str s => s == "None"
  | _ => false

/-- Python exceptions raised by the embedded code paths. -/
inductive PyErr where
  | typeError (msg : String)
  | valueError (msg : String)
  | overflowError
  | attributeError (msg : String)
  | keyError (key : String)
  | recursionError
deriving Repr, DecidableEq

/-- Python truthiness (bool(v)) for the embedded value type; the obj
constructor stands for an entity instance, which defines no __bool__ or
__len__ and is therefore always truthy. -/
def pyTruthy : Value → Bool
  | .none => false
  | .bool b => b
  | .int n => n != 0
  | .float q => q != 0
  | .str s => s != ""
  | .dt _ => true
  | .list l => !l.isEmpty
  | .dict d => !d.isEmpty
  | .obj _ => true

/-- Numeric view used by Python cross-type equality (bool is an int).
Rationals are built with mkRat throughout the embedding so that every
concrete value is kernel-computable. -/
def numView : Value → Option ℚ
  | .bool b => some (if b then mkRat 1 1 else mkRat 0 1)
  | .int n => some (mkRat n 1)
  | .float q => some q
  | _ => Option.none

mutual
/-- Python equality (the == operator) restricted to the value shapes the
engine compares: numbers compare numerically across bool/int/float,
other shapes compare structurally, mixed shapes are unequal. -/
def pyEq : Value → Value → Bool
  | .none, .none => true
  | .str a, .str b => a == b
  | .dt a, .dt b => a == b
  | .list a, .list b => pyEqList a b
  | .dict a, .dict b => pyEqDict a b
  | a, b =>
    match numView a, numView b with
    | some x, some y => x == y
    | _, _ => false

def pyEqList : List Value → List Value → Bool
  | [], [] => true
  | a :: as, b :: bs => pyEq a b && pyEqList as bs
  | _, _ => false

def pyEqDict : List (String × Value) → List (String × Value) → Bool
  | [], [] => true
  | (ka, va) :: as, (kb, vb) :: bs => ka == kb && pyEq va vb && pyEqDict as bs
  | _, _ => false
end

/-- Dictionary used as object store and filter object. -/
abbrev Dict := List (String × Value)

/-- Lookup of a key (first binding wins; the update discipline below keeps
keys unique). -/
def dictGet : Dict → String → Option Value
  | [], _ => Option.none
  | (k, v) :: rest, key => if k = key then some v else dictGet rest key

/-- Python d[key] = v: replaces the value in place if the key is present
(keeping its position, as Python dicts do) and appends otherwise. -/
def dictSet : Dict → String → Value → Dict
  | [], key, v => [(key, v)]
  | (k, w) :: rest, key, v =>
    if k = key then (k, v) :: rest else (k, w) :: dictSet rest key v

/-- Python d.setdefault(key): inserts None if the key is absent. -/
def dictSetdefault (d : Dict) (key : String) : Dict :=
  match dictGet d key with
  | some _ => d
  | Option.none => d ++ [(key, Value.none)]

/-- Python del d[key]; raises KeyError when the key is absent. -/
def dictDel : Dict → String → Except PyErr Dict
  | [], key => .error (.keyError key)
  | (k, v) :: rest, key =>
    if k = key then .ok rest
    else do
      let r ← dictDel rest key
      .ok ((k, v) :: r)

/-- Attribute read on an object store with all fields populated; Python
d.get(key), returning None for a missing key, is the same operation. -/
def dGet (d : Dict) (key : String) : Value :=
  (dictGet d key).getD .none

@[simp] theorem dictGet_nil (key : String) : dictGet [] key = Option.none := rfl

@[simp] theorem dictGet_cons (k : String) (v : Value) (rest : Dict) (key : String) :
    dictGet ((k, v) :: rest) key = if k = key then some v else dictGet rest key := rfl

theorem dictGet_dictSet_same (d : Dict) (k : String) (v : Value) :
    dictGet (dictSet d k v) k = some v := by
  induction d with
  | nil => simp [dictSet]
  | cons hd tl ih =>
    obtain ⟨k0, v0⟩ := hd
    by_cases h : k0 = k <;> simp [dictSet, h, ih]

theorem dictGet_dictSet_other (d : Dict) (k k2 : String) (v : Value) (h : k ≠ k2) :
    dictGet (dictSet d k v) k2 = dictGet d k2 := by
  induction d with
  | nil => simp [dictSet, h]
  | cons hd tl ih =>
    obtain ⟨k0, v0⟩ := hd
    by_cases h0 : k0 = k
    · subst h0; simp [dictSet, h]
    · simp [dictSet, h0, ih]

theorem dictSet_ne_nil (d : Dict) (k : String) (v : Value) : dictSet d k v ≠ [] := by
  cases d with
  | nil => simp [dictSet]
  | cons hd tl =>
    obtain ⟨k0, v0⟩ := hd
    by_cases h : k0 = k <;> simp [dictSet, h]

theorem dictGet_append (a b : Dict) (key : String) :
    dictGet (a ++ b) key =
      match dictGet a key with
      | some v => some v
      | Option.none => dictGet b key := by
  induction a with
  | nil => simp
  | cons hd tl ih =>
    obtain ⟨k0, v0⟩ := hd
    by_cases h : k0 = key <;> simp [h, ih]

theorem dictGet_dictSetdefault_same (d : Dict) (k : String) :
    dictGet (dictSetdefault d k) k = some (dGet d k) := by
  unfold dictSetdefault dGet
  match h : dictGet d k with
  | some v => simp [h]
  | Option.none => simp [dictGet_append, h]

theorem dictGet_dictSetdefault_other (d : Dict) (k k2 : String) (h : k ≠ k2) :
    dictGet (dictSetdefault d k) k2 = dictGet d k2 := by
  unfold dictSetdefault
  match hg : dictGet d k with
  | some v => simp
  | Option.none =>
    simp only [dictGet_append, h]
    match hg2 : dictGet d k2 with
    | some v => simp
    | Option.none => simp [h]

/-! String and character helpers mirroring the Python operations used by
utils.py: str.strip, str.lower, and the whitespace-collapsing
re.sub of parse_offset. -/

/-- Python whitespace characters (ASCII range of the re module class). -/
def isPySpace (c : Char) : Bool :=
  c = ' ' || c = '\t' || c = '\n' || c = '\r' || c = Char.ofNat 11 || c = Char.ofNat 12

/-- Python str.strip on a character list. -/
def stripChars (l : List Char) : List Char :=
  ((l.dropWhile isPySpace).reverse.dropWhile isPySpace).reverse

/-- Python str.lower for the ASCII inputs the grammars accept. -/
def lowerChars (l : List Char) : List Char := l.map Char.toLower

theorem length_dropWhile_le_mlh (p : Char → Bool) (l : List Char) :
    (l.dropWhile p).length ≤ l.length := by
  induction l with
  | nil => simp
  | cons c rest ih =>
    by_cases h : p c
    · simp only [List.dropWhile_cons, h, if_pos]
      exact Nat.le_succ_of_le ih
    · simp [List.dropWhile_cons, h]

/-- One-pass worker for the whitespace-collapsing substitution; the
flag records whether the previous character was inside a whitespace
run (whose first character has already emitted the single space). -/
def collapseWsAux : Bool → List Char → List Char
  | _, [] => []
  | inRun, c :: rest =>
    if isPySpace c then
      if inRun then collapseWsAux true rest
      else ' ' :: collapseWsAux true rest
    else c :: collapseWsAux false rest

/-- The re.sub of a whitespace run by one space in parse_offset. -/
def collapseWs (l : List Char) : List Char := collapseWsAux false l

def digitVal (c : Char) : Nat := c.toNat - 48

def digitsToNat (l : List Char) : Nat := l.foldl (fun a c => a * 10 + digitVal c) 0

/-- Decimal digits of a natural number, most significant first; the
fuel bounds the digit count and any value above it is exact. -/
def natCharsAux : Nat → Nat → List Char
  | 0, _ => []
  | fuel + 1, n =>
    if n < 10 then [Char.ofNat (48 + n)]
    else natCharsAux fuel (n / 10) ++ [Char.ofNat (48 + n % 10)]

def natChars (n : Nat) : List Char := natCharsAux (n + 1) n

/-- Zero padding on the left, as the %Y/%m/%d/... strftime directives do. -/
def padZeros (width : Nat) (l : List Char) : List Char :=
  List.replicate (width - l.length) '0' ++ l

def pad2 (n : Nat) : List Char := padZeros 2 (natChars n)
def pad6 (n : Nat) : List Char := padZeros 6 (natChars n)

/-- Year rendering of strftime %Y (zero-padded to four digits). -/
def yearChars (y : Int) : List Char :=
  if y < 0 then '-' :: padZeros 4 (natChars (-y).toNat)
  else padZeros 4 (natChars y.toNat)

/-! Proleptic-Gregorian calendar arithmetic (the conversions the Python
datetime type performs internally).  Days are counted from the Unix
epoch 1970-01-01. -/

def daysFromCivil (y m d : Int) : Int :=
  let y2 := if m ≤ 2 then y - 1 else y
  let era := y2.fdiv 400
  let yoe := y2 - era * 400
  let mp := (m + 9).emod 12
  let doy := (153 * mp + 2).fdiv 5 + d - 1
  let doe := yoe * 365 + yoe.fdiv 4 - yoe.fdiv 100 + doy
  era * 146097 + doe - 719468

def civilFromDays (z : Int) : Int × Int × Int :=
  let z2 := z + 719468
  let era := z2.fdiv 146097
  let doe := z2 - era * 146097
  let yoe := (doe - doe.fdiv 1460 + doe.fdiv 36524 - doe.fdiv 146096).fdiv 365
  let y := yoe + era * 400
  let doy := doe - (365 * yoe + yoe.fdiv 4 - yoe.fdiv 100)
  let mp := (5 * doy + 2).fdiv 153
  let d := doy - (153 * mp + 2).fdiv 5 + 1
  let m := if mp < 10 then mp + 3 else mp - 9
  (if m ≤ 2 then y + 1 else y, m, d)

def microsPerDay : Int := 86400000000

def dtToMicros (y m d h mi s us : Int) : Int :=
  daysFromCivil y m d * microsPerDay +
    h * 3600000000 + mi * 60000000 + s * 1000000 + us

/-- datetime.min of Python, in microseconds since the epoch. -/
def minDatetime : Int := dtToMicros 1 1 1 0 0 0 0

/-- datetime.max of Python, in microseconds since the epoch. -/
def maxDatetime : Int := dtToMicros 9999 12 31 23 59 59 999999

def isLeap (y : Int) : Bool :=
  y.emod 4 = 0 && (y.emod 100 != 0 || y.emod 400 = 0)

def daysInMonth (y m : Int) : Int :=
  if m = 2 then (if isLeap y then 29 else 28)
  else if m = 4 ∨ m = 6 ∨ m = 9 ∨ m = 11 then 30
  else 31

/-! datetime.strptime with the fixed format "%Y-%m-%dT%H:%M:%S.%fZ"
(utils.parse_datetime line 46).  The digit-count alternations below are
those of the CPython _strptime regular expressions for each directive. -/

/-- Consume one expected literal character. -/
def litChar (c : Char) : List Char → Option (List Char)
  | x :: r => if x = c then some r else Option.none
  | [] => Option.none

/-- Consume a one-or-two-digit field, preferring the two-digit form when
its numeric test passes (equivalent to the ordered regex alternation
because the following character is never a digit in this format). -/
def field2Digit (valid2 : Nat → Bool) (valid1 : Nat → Bool) :
    List Char → Option (Nat × List Char)
  | c1 :: c2 :: rest =>
    if c1.isDigit && c2.isDigit && valid2 (digitVal c1 * 10 + digitVal c2) then
      some (digitVal c1 * 10 + digitVal c2, rest)
    else if c1.isDigit && valid1 (digitVal c1) then some (digitVal c1, c2 :: rest)
    else Option.none
  | [c1] => if c1.isDigit && valid1 (digitVal c1) then some (digitVal c1, []) else Option.none
  | [] => Option.none

/-- The %Y directive: exactly four digits. -/
def fieldYear4 : List Char → Option (Nat × List Char)
  | a :: b :: c :: d :: rest =>
    if a.isDigit && b.isDigit && c.isDigit && d.isDigit then
      some (digitsToNat [a, b, c, d], rest)
    else Option.none
  | _ => Option.none

/-- The %f directive: one to six digits, value scaled to microseconds. -/
def fieldFrac (l : List Char) : Option (Nat × List Char) :=
  let ds := (l.takeWhile Char.isDigit).take 6
  if ds.isEmpty then Option.none
  else some (digitsToNat ds * 10 ^ (6 - ds.length), l.drop ds.length)

def strptimeFields (l : List Char) :
    Option (Nat × Nat × Nat × Nat × Nat × Nat × Nat) := do
  let (y, r) ← fieldYear4 l
  let r ← litChar '-' r
  let (mo, r) ← field2Digit (fun n => 1 ≤ n && n ≤ 12) (fun n => 1 ≤ n) r
  let r ← litChar '-' r
  let (dy, r) ← field2Digit (fun n => 1 ≤ n && n ≤ 31) (fun n => 1 ≤ n) r
  let r ← litChar 'T' r
  let (h, r) ← field2Digit (fun n => n ≤ 23) (fun _ => true) r
  let r ← litChar ':' r
  let (mi, r) ← field2Digit (fun n => n ≤ 59) (fun _ => true) r
  let r ← litChar ':' r
  let (sc, r) ← field2Digit (fun n => n ≤ 61) (fun _ => true) r
  let r ← litChar '.' r
  let (us, r) ← fieldFrac r
  let r ← litChar 'Z' r
  if r.isEmpty then some (y, mo, dy, h, mi, sc, us) else Option.none

/-- strptime plus the datetime constructor checks: year at least 1, day
within the month, second at most 59. -/
def strptimeIso (l : List Char) : Except PyErr Int :=
  match strptimeFields l with
  | Option.none => .error (.valueError "time data does not match format")
  | some (y, mo, dy, h, mi, sc, us) =>
    if y < 1 then .error (.valueError "year is out of range")
    else if (dy : Int) > daysInMonth y mo then .error (.valueError "day is out of range for month")
    else if sc > 59 then .error (.valueError "second must be in 0..59")
    else .ok (dtToMicros y mo dy h mi sc us)

/-! utils.dump_datetime: strftime with the same fixed format.  The
source returns None for a None input; every call site reached by the
claims passes an actual datetime, which is always truthy, so the
embedding takes the datetime directly. -/

def dumpDate : Int × Int × Int → List Char
  | (y, mo, dy) => yearChars y ++ '-' :: pad2 mo.toNat ++ '-' :: pad2 dy.toNat

def dumpTime (rem : Nat) : List Char :=
  'T' :: pad2 (rem / 3600000000) ++ ':' :: pad2 (rem / 60000000 % 60) ++
    ':' :: pad2 (rem / 1000000 % 60) ++ '.' :: pad6 (rem % 1000000) ++ ['Z']

def dumpDatetimeChars (m : Int) : List Char :=
  dumpDate (civilFromDays (m.fdiv microsPerDay)) ++
    dumpTime ((m - m.fdiv microsPerDay * microsPerDay).toNat)

def dump_datetime (m : Int) : String := String.mk (dumpDatetimeChars m)

/-! utils.parse_offset (lines 11-32, with days=False as every call site
relevant to the claims passes).  A timedelta is an integer count of
microseconds; the Python timedelta constructor rejects a "years" keyword
with TypeError and overflows beyond plus or minus 999999999 days. -/

def normalizeOffset (s : String) : List Char :=
  collapseWs (lowerChars (stripChars s.data))

def offsetUnits : List (String × Int) :=
  [("year", 0), ("week", 604800000000), ("day", 86400000000),
   ("hour", 3600000000), ("minute", 60000000), ("second", 1000000)]

/-- Building timedelta(**(unit+"s") n): the "year" unit is not a valid
timedelta keyword (TypeError); magnitudes beyond the timedelta day range
overflow. -/
def mkOffsetTd (u : String) (n : Int) : Except PyErr Int :=
  if u = "year" then .error (.typeError "years is an invalid keyword argument")
  else
    match (offsetUnits.lookup u) with
    | some k =>
      let t := n * k
      if t.fdiv microsPerDay < -999999999 ∨ 999999999 < t.fdiv microsPerDay then
        .error .overflowError
      else .ok t
    | Option.none => .error (.typeError "unknown unit")

/-- Literal-prefix consumption. -/
def stripLit : List Char → List Char → Option (List Char)
  | [], l => some l
  | c :: cs, x :: r => if x = c then stripLit cs r else Option.none
  | _ :: _, [] => Option.none

/-- Tail matcher for "(unit)s?" at end of input. -/
def unitAtEnd (l : List Char) : Option String :=
  (offsetUnits.map Prod.fst).foldr
    (fun u acc =>
      if l = u.data ∨ l = u.data ++ ['s'] then some u else acc)
    Option.none

/-- Tail matcher for "(unit)s? ago" at end of input. -/
def unitAgoAtEnd (l : List Char) : Option String :=
  (offsetUnits.map Prod.fst).foldr
    (fun u acc =>
      if l = u.data ++ " ago".data ∨ l = u.data ++ "s ago".data then some u else acc)
    Option.none

/-- Fullmatch of "in ([0-9]+) (year|week|day|hour|minute|second)s?" on
the normalized offset string. -/
def matchInOffset : List Char → Option (Nat × String)
  | 'i' :: 'n' :: ' ' :: rest =>
    let ds := rest.takeWhile Char.isDigit
    if ds.isEmpty then Option.none
    else
      match rest.drop ds.length with
      | ' ' :: r => (unitAtEnd r).map (fun u => (digitsToNat ds, u))
      | _ => Option.none
  | _ => Option.none

/-- Fullmatch of "([0-9]+) (year|week|day|hour|minute|second)s? ago" on
the normalized offset string. -/
def matchAgoOffset (l : List Char) : Option (Nat × String) :=
  let ds := l.takeWhile Char.isDigit
  if ds.isEmpty then Option.none
  else
    match l.drop ds.length with
    | ' ' :: r => (unitAgoAtEnd r).map (fun u => (digitsToNat ds, u))
    | _ => Option.none

/-- utils.parse_offset with days=False.  Returns none when the string
matches no offset form ("return None" paths), some td for a match; the
zero timedelta produced for "now" is some 0. -/
def parse_offset (offset : String) : Except PyErr (Option Int) :=
  if offset = "" then .ok Option.none
  else
    let l := normalizeOffset offset
    if l = "now".data then .ok (some 0)
    else
      match matchInOffset l with
      | some (n, u) => (mkOffsetTd u (n : Int)).map some
      | Option.none =>
        match matchAgoOffset l with
        | some (n, u) => (mkOffsetTd u (-(n : Int))).map some
        | Option.none => .ok Option.none

/-- Unix-or-millisecond timestamp conversion of parse_datetime (numeric
inputs; the millisecond form is detected by magnitude).  The floor of
seconds times a million is computed on the numerator and denominator
directly: for q below the threshold it is floor(q * 10^6), otherwise
floor((q / 1000) * 10^6) = floor(q * 10^3). -/
def fromTimestampQ (q : ℚ) : Except PyErr (Option Int) :=
  let micros :=
    if q < mkRat 10000000000 1 then (q.num * 1000000).fdiv q.den
    else (q.num * 1000).fdiv q.den
  if micros < minDatetime ∨ maxDatetime < micros then .error .overflowError
  else .ok (some micros)

def strptimeWrap (s : String) : Except PyErr (Option Int) :=
  (strptimeIso (stripChars s.data)).map some

/-- utils.parse_datetime (lines 35-46) with default=None, where now is
the value of datetime.utcnow().  Note the faithful truthiness test on
the parsed offset: a zero timedelta (from "now") is falsy, so that case
falls through to strptime. -/
def parse_datetime (now : Int) (val : Value) : Except PyErr (Option Int) :=
  if !pyTruthy val then .ok Option.none
  else
    match val with
    | .dt m => .ok (some m)
    | .bool _ => fromTimestampQ (mkRat 1 1)
    | .int n => fromTimestampQ (mkRat n 1)
    | .float q => fromTimestampQ q
    | .str s => do
      let off ← parse_offset s
      match off with
      | some t =>
        if t ≠ 0 then
          let r := now + t
          if r < minDatetime ∨ maxDatetime < r then .error .overflowError
          else .ok (some r)
        else strptimeWrap s
      | Option.none => strptimeWrap s
    | _ => .error (.attributeError "strip")

/-! The two query micro-grammars of Farmbot.PointQuery (lines 246-247),
embedded as deterministic scanners.  Both regular expressions are
fullmatched against value.strip().  Greedy runs never need regex
backtracking here because every character class in the patterns is
disjoint from the character that must follow the run; comments note
this where it applies. -/

inductive Qual where
  | before
  | after
deriving DecidableEq, Repr

def isLowerAlpha (c : Char) : Bool := 'a' ≤ c && c ≤ 'z'

/-- Date alternative "[0-9]+\s[a-z]+\s+ago" (note: exactly one
whitespace character between the number and the unit). -/
def altAgo (l : List Char) : Bool :=
  let ds := l.takeWhile Char.isDigit
  if ds.isEmpty then false
  else
    match l.drop ds.length with
    | c :: r =>
      if isPySpace c then
        let ws := r.takeWhile isLowerAlpha
        if ws.isEmpty then false
        else
          match r.drop ws.length with
          | c2 :: r2 => isPySpace c2 && (r2.dropWhile isPySpace == "ago".data)
          | [] => false
      else false
    | [] => false

/-- Date alternative "in\s+[0-9]+\s+[a-z]+". -/
def altIn (l : List Char) : Bool :=
  match l with
  | c0 :: c1 :: c :: r =>
    if c0 = 'i' && c1 = 'n' && isPySpace c then
      let r2 := r.dropWhile isPySpace
      let ds := r2.takeWhile Char.isDigit
      if ds.isEmpty then false
      else
        match r2.drop ds.length with
        | c2 :: r3 =>
          if isPySpace c2 then
            let r4 := r3.dropWhile isPySpace
            !r4.isEmpty && r4.all isLowerAlpha
          else false
        | [] => false
    else false
  | _ => false

/-- Tail of the literal-instant alternative after its leading "20". -/
def altIsoTail (rest : List Char) : Bool :=
  match rest with
  | y3 :: y4 :: s1 :: m1 :: m2 :: s2 :: d1 :: d2 :: t :: h1 :: h2 :: s3 ::
      n1 :: n2 :: s4 :: x1 :: x2 :: dot :: r =>
    ('1' ≤ y3 && y3 ≤ '9') && y4.isDigit &&
    s1 = '-' && m1.isDigit && m2.isDigit && s2 = '-' && d1.isDigit && d2.isDigit &&
    t = 'T' && h1.isDigit && h2.isDigit && s3 = ':' && n1.isDigit && n2.isDigit &&
    s4 = ':' && x1.isDigit && x2.isDigit && dot = '.' &&
    (let ds := r.takeWhile Char.isDigit
     !ds.isEmpty && r.drop ds.length == ['Z'])
  | _ => false

/-- Date alternative for a literal instant:
"20[1-9][0-9]-[0-9][0-9]-[0-9][0-9]T[0-9][0-9]:[0-9][0-9]:[0-9][0-9](?:\.[0-9]+)Z"
(the fraction is not optional in this pattern). -/
def altIso (l : List Char) : Bool :=
  match l with
  | c0 :: c1 :: rest => c0 = '2' && c1 = '0' && altIsoTail rest
  | _ => false

/-- The "now" alternative: the whole remainder is the word now. -/
def isNowWord : List Char → Bool
  | c0 :: c1 :: c2 :: tail => c0 = 'n' && c1 = 'o' && c2 = 'w' && tail.isEmpty
  | _ => false

/-- Group 2 of the date pattern; it always extends to the end of the
string, so a successful match has the whole remainder as its text. -/
def instantOk (l : List Char) : Bool :=
  altAgo l || altIn l || isNowWord l || altIso l

/-- The optional "(before|after)" group head.  The two literals have
distinct first characters, so ordered alternation needs no backtracking. -/
def qualScan (l : List Char) : Option (Qual × List Char) :=
  match stripLit "before".data l with
  | some r => some (.before, r)
  | Option.none =>
    match stripLit "after".data l with
    | some r => some (.after, r)
    | Option.none => Option.none

/-- Fullmatch of the PointQuery date pattern.  When the qualifier prefix
matches but the rest does not, the regex engine retries without the
prefix; that fallback is kept even though a string starting with
"before"/"after" can never satisfy a group-2 alternative. -/
def rxdateCore (l : List Char) : Option (Option Qual × List Char) :=
  let noPrefix : Option (Option Qual × List Char) :=
    if instantOk l then some (Option.none, l) else Option.none
  match qualScan l with
  | some (q, c :: r) =>
    if isPySpace c then
      let g2 := r.dropWhile isPySpace
      if instantOk g2 then some (some q, g2) else noPrefix
    else noPrefix
  | some (_, []) => noPrefix
  | Option.none => noPrefix

/-- PointQuery.__rxdate.fullmatch(value.strip()), returning the optional
qualifier (group 1) and the instant expression (group 2). -/
def rxdateMatch (value : String) : Option (Option Qual × String) :=
  (rxdateCore (stripChars value.data)).map (fun p => (p.1, String.mk p.2))

/-- Fullmatch-to-end of "-?[0-9]+(?:\.[0-9]+)?(?:[eE][+-]?[0-9]+)?",
returning the exact rational value of the literal (floats are modelled
exactly; no claim depends on IEEE-754 rounding of these literals).
The value sign * (I + F / 10 ^ |F|) * 10 ^ e is assembled as a single
fraction over integer arithmetic. -/
def numberScanQ (l : List Char) : Option ℚ :=
  let (neg, r) :=
    match l with
    | c :: rest => if c = '-' then (true, rest) else (false, l)
    | [] => (false, l)
  let ds := r.takeWhile Char.isDigit
  if ds.isEmpty then Option.none
  else
    let r2 := r.drop ds.length
    let (fs, r3) :=
      match r2 with
      | c :: rest =>
        if c = '.' then
          let fs := rest.takeWhile Char.isDigit
          if fs.isEmpty then (([] : List Char), r2)
          else (fs, rest.drop fs.length)
        else (([] : List Char), r2)
      | [] => (([] : List Char), r2)
    let (expPart, r4) :=
      match r3 with
      | c :: rest =>
        if c = 'e' ∨ c = 'E' then
          let (sgn, r5) :=
            match rest with
            | c2 :: rest2 =>
              if c2 = '+' then ((1 : Int), rest2)
              else if c2 = '-' then ((-1 : Int), rest2)
              else ((1 : Int), rest)
            | [] => ((1 : Int), rest)
          let es := r5.takeWhile Char.isDigit
          if es.isEmpty then ((0 : Int), r3)
          else (sgn * (digitsToNat es : Int), r5.drop es.length)
        else ((0 : Int), r3)
      | [] => ((0 : Int), r3)
    if r4.isEmpty then
      let mag : Int := (digitsToNat (ds ++ fs) : Int)
      let sn : Int := if neg then -mag else mag
      some (if 0 ≤ expPart then mkRat (sn * 10 ^ expPart.toNat) (10 ^ fs.length)
            else mkRat sn (10 ^ fs.length * 10 ^ (-expPart).toNat))
    else Option.none

/-- Fullmatch of the PointQuery numeric pattern
"at\s+(least|most)\s+number" on an already stripped string; the Bool is
true for "least". -/
def rxnumCore (l : List Char) : Option (Bool × ℚ) :=
  match l with
  | c0 :: c1 :: c :: r =>
    if c0 = 'a' && c1 = 't' && isPySpace c then
      let r2 := r.dropWhile isPySpace
      let tailOf : List Char → Option ℚ := fun r3 =>
        match r3 with
        | c2 :: r4 =>
          if isPySpace c2 then numberScanQ (r4.dropWhile isPySpace) else Option.none
        | [] => Option.none
      match stripLit "least".data r2 with
      | some r3 => (tailOf r3).map (fun q => (true, q))
      | Option.none =>
        match stripLit "most".data r2 with
        | some r3 => (tailOf r3).map (fun q => (false, q))
        | Option.none => Option.none
    else Option.none
  | _ => Option.none

/-- PointQuery.__rxnum.fullmatch(value.strip()). -/
def rxnumMatch (value : String) : Option (Bool × ℚ) :=
  rxnumCore (stripChars value.data)

/-- Python float(x) as applied by the numeric predicates: numbers pass
through (bool is numeric), strings parse as float literals, None and
containers raise TypeError. -/
def floatLitScan (l : List Char) : Option ℚ :=
  numberScanQ (stripChars l)

def pyFloat : Value → Except PyErr ℚ
  | .bool b => .ok (if b then mkRat 1 1 else mkRat 0 1)
  | .int n => .ok (mkRat n 1)
  | .float q => .ok q
  | .str s =>
    match floatLitScan s.data with
    | some q => .ok q
    | Option.none => .error (.valueError "could not convert string to float")
  | _ => .error (.typeError "float() argument must be a string or a number")

/-! Record schemas.  The three point classes of Farmbot.py and their
declared fields, in the order get_type_hints produces them (annotations
are collected along the reversed method resolution order: Coordinate,
Identifiable, then the class itself). -/

inductive PCls where
  | point
  | plant
  | toolSlot
deriving DecidableEq, Repr

def pointProps : List String :=
  ["x", "y", "z", "id", "created_at", "updated_at",
   "device_id", "pointer_type", "name", "meta", "radius", "discarded_at"]

def plantProps : List String :=
  pointProps ++ ["openfarm_slug", "plant_stage", "planted_at"]

def toolSlotProps : List String :=
  pointProps ++ ["tool_id", "pullout_direction"]

def propsOf : PCls → List String
  | .point => pointProps
  | .plant => plantProps
  | .toolSlot => toolSlotProps

/-- The discriminator registry built by get_point_type (Farmbot lines
83-97) by walking Point.__subclasses__ transitively: the repository
defines exactly Plant and ToolSlot; the base class is not indexed. -/
def pointTypeRegistry : List (String × PCls) :=
  [("Plant", .plant), ("ToolSlot", .toolSlot)]

/-- Farmbot.get_point_type: dictionary lookup of the discriminator with
the base class as fallback (a non-string key is simply not found). -/
def get_point_type : Value → PCls
  | .str s => (pointTypeRegistry.lookup s).getD .point
  | _ => .point

/-- Farmbot.get_pointer_type (lines 100-103): the base class maps to the
sentinel GenericPointer, not to its own class name. -/
def get_pointer_type : PCls → String
  | .point => "GenericPointer"
  | .plant => "Plant"
  | .toolSlot => "ToolSlot"

/-! Object stores live in a small heap so that the adoption of the
caller's mapping by Entity.__new__ (self.__dict__ = __dict__) is
representable as reference sharing: a record's store is a heap index. -/

abbrev Heap := List Dict

def hGet (h : Heap) (r : Nat) : Dict := (h.get? r).getD []

def hSet (h : Heap) (r : Nat) (d : Dict) : Heap := h.set r d

def hAlloc (h : Heap) (d : Dict) : Heap × Nat := (h ++ [d], h.length)

def setdefaultAll (props : List String) (d : Dict) : Dict :=
  props.foldl dictSetdefault d

/-- Entity.__new__ (utils lines 96-102): the passed mapping is adopted
as the instance store only when it is truthy, i.e. non-empty; otherwise
the fresh (empty) instance dictionary stays in place.  Every declared
prop is then setdefault-ed to None on whichever store the instance has. -/
def entityNew (props : List String) (h : Heap) (ref : Option Nat) : Heap × Nat :=
  match ref with
  | some r =>
    if (hGet h r).isEmpty then hAlloc h (setdefaultAll props [])
    else (hSet h r (setdefaultAll props (hGet h r)), r)
  | Option.none => hAlloc h (setdefaultAll props [])

/-- Point.__init__ defaults (Farmbot lines 119-133), in source order:
a falsy pointer_type is replaced by the canonical discriminator of the
constructed class, then meta, x, y, z and radius are given defaults
exactly when their value is None. -/
def pointInitDefaults (cls : PCls) (st0 : Dict) : Dict :=
  let st1 := if !pyTruthy (dGet st0 "pointer_type") then
    dictSet st0 "pointer_type" (.str (get_pointer_type cls)) else st0
  let st2 := if isVNone (dGet st1 "meta") then dictSet st1 "meta" (.dict []) else st1
  let st3 := if isVNone (dGet st2 "x") then dictSet st2 "x" (.int 0) else st2
  let st4 := if isVNone (dGet st3 "y") then dictSet st3 "y" (.int 0) else st3
  let st5 := if isVNone (dGet st4 "z") then dictSet st4 "z" (.int 0) else st4
  if isVNone (dGet st5 "radius") then dictSet st5 "radius" (.float 0) else st5

/-- Construction Cls(__dict__=data) of a point class with no keyword
arguments (the only form the embedded call sites use): Point.__new__
dispatches on the discriminator only when the constructed class is the
base class and the mapping is truthy (lines 114-117), then
Entity.__new__ runs with the chosen class's props, then Point.__init__
populates defaults.  Returns the final heap, the store reference of the
new instance and its concrete class. -/
def pointConstruct (cls : PCls) (h : Heap) (ref : Option Nat) : Heap × Nat × PCls :=
  let data := match ref with | some r => hGet h r | Option.none => []
  let cls2 := if cls = .point && !data.isEmpty then get_point_type (dGet data "pointer_type") else cls
  let (h2, r2) := entityNew (propsOf cls2) h ref
  (hSet h2 r2 (pointInitDefaults cls2 (hGet h2 r2)), r2, cls2)

/-- The store of an instance constructed from a single-cell heap
holding the mapping d: the composition the construction theorems
inspect. -/
def constructedStore (cls : PCls) (d : Dict) : Dict :=
  hGet (pointConstruct cls [d] (some 0)).1 (pointConstruct cls [d] (some 0)).2.1

/-- One conversion pass of EntityFactory.make (utils lines 144-147): for
each declared prop in order, data[key] = factory(data.get(key)), mutating
the caller's mapping in place; a failing conversion propagates. -/
def makeConvert : List (String × (Value → Except PyErr Value)) → Heap → Nat →
    Except PyErr Heap
  | [], h, _ => .ok h
  | (k, f) :: rest, h, r =>
    match f (dGet (hGet h r) k) with
    | .ok v => makeConvert rest (hSet h r (dictSet (hGet h r) k v)) r
    | .error e => .error e

/-- EntityFactory.make for a plain (non-point) record schema:
conversions, then cls(__dict__=data), whose __new__ adopts the mapping
when non-empty and whose __init__ does nothing without kwargs. -/
def entityMake (propsF : List (String × (Value → Except PyErr Value)))
    (h : Heap) (r : Nat) : Except PyErr (Heap × Nat) := do
  let h2 ← makeConvert propsF h r
  .ok (entityNew (propsF.map Prod.fst) h2 (some r))

/-- EntityFactory.make for a point schema: conversions, then the
polymorphic point construction. -/
def pointMake (cls : PCls) (propsF : List (String × (Value → Except PyErr Value)))
    (h : Heap) (r : Nat) : Except PyErr (Heap × Nat × PCls) := do
  let h2 ← makeConvert propsF h r
  .ok (pointConstruct cls h2 (some r))

/-! The registered conversion functions of utils.factories and
get_factory that Point fields use. -/

/-- Python str() rendering for the value shapes the str conversion can
receive on the embedded paths (None renders as the string None). -/
def pyStr : Value → String
  | .str s => s
  | .none => "None"
  | .bool b => if b then "True" else "False"
  | .int n => toString n
  | .float q => toString q
  | .dt _ => "datetime"
  | .list _ => "list"
  | .dict _ => "dict"
  | .obj _ => "object"

/-- factories[int]: int(literal_eval(val) if str else val).  int(None)
and int of a container raise TypeError; float input truncates toward
zero. -/
def intFactory : Value → Except PyErr Value
  | .int n => .ok (.int n)
  | .bool b => .ok (.int (if b then 1 else 0))
  | .float q => .ok (.int (q.num.tdiv q.den))
  | .str s =>
    match floatLitScan s.data with
    | some q => .ok (.int (q.num.tdiv q.den))
    | Option.none => .error (.valueError "invalid literal for int")
  | _ => .error (.typeError "int() argument must be a string or a number, not NoneType")

/-- factories[float]: float(literal_eval(val) if str else val). -/
def floatFactory (v : Value) : Except PyErr Value := do
  let q ← pyFloat v
  .ok (.float q)

/-- factories[str]: plain str(). -/
def strFactory (v : Value) : Except PyErr Value := .ok (.str (pyStr v))

/-- factories[datetime]: utils.parse_datetime with default None. -/
def datetimeFactory (now : Int) (v : Value) : Except PyErr Value := do
  let r ← parse_datetime now v
  .ok (match r with | some m => .dt m | Option.none => .none)

/-- factories[Any]: the identity. -/
def anyFactory (v : Value) : Except PyErr Value := .ok v

/-- The factory generated for Dict[str, Any]: iterates val.items(),
applying str to keys (already strings here) and the identity to values;
non-mapping, non-string input has no items attribute. -/
def dictStrAnyFactory : Value → Except PyErr Value
  | .dict d => .ok (.dict d)
  | _ => .error (.attributeError "items")

/-- The conversion function get_factory builds for Optional[T] fields
(utils line 169).  The lambda body reads its free variable factory when
called, and by then the enclosing scope's factory variable has been
rebound to this very lambda; so for any input other than None and the
string None the lambda re-enters itself with the unchanged argument and
never reaches the inner conversion.  The fuel counts remaining Python
stack frames; exhausting it is CPython's RecursionError. -/
def optionalFactoryFuel (fuel : Nat) (val : Value) : Except PyErr Value :=
  match fuel with
  | 0 => .error .recursionError
  | n + 1 =>
    if isAbsentTok val then .ok .none
    else optionalFactoryFuel n val

def optionalFactory (val : Value) : Except PyErr Value :=
  optionalFactoryFuel 1000 val

/-- The prop-to-conversion table EntityFactory(Point).get_props()
resolves, keyed in declaration order. -/
def pointPropFactories (now : Int) : List (String × (Value → Except PyErr Value)) :=
  [("x", intFactory), ("y", intFactory), ("z", intFactory),
   ("id", intFactory), ("created_at", datetimeFactory now),
   ("updated_at", datetimeFactory now), ("device_id", intFactory),
   ("pointer_type", strFactory), ("name", strFactory),
   ("meta", dictStrAnyFactory), ("radius", floatFactory),
   ("discarded_at", optionalFactory)]

/-- The conversion function get_factory(Point) registers, as invoked on
one raw search result: a raw mapping is converted in place and the
typed instance (an entity object backed by the converted store) is
returned; non-mapping input has no get attribute. -/
def runPointFactory (now : Int) : Value → Except PyErr Value
  | .dict d => do
    let (h, r, _) ← pointMake .point (pointPropFactories now) [d] 0
    .ok (.obj (hGet h r))
  | _ => .error (.attributeError "get")

/-- A well-formed raw point record as the remote search returns it:
every declared field present and convertible. -/
def sampleRawPoint : Value :=
  .dict [("x", .int 10), ("y", .int 20), ("z", .int 0), ("id", .int 1),
    ("created_at", .str "2024-06-01T00:00:00.000Z"),
    ("updated_at", .str "2024-06-01T00:00:00.000Z"),
    ("device_id", .int 1), ("pointer_type", .str "GenericPointer"),
    ("name", .str "sample"), ("meta", .dict []),
    ("radius", .float (mkRat 4999 1000)), ("discarded_at", .none)]

/-! Point.apply (Farmbot lines 135-153). -/

/-- The meta-routing rule shared verbatim by Point.apply line 146 and
PointQuery.__init__ line 269: the keys meta and id are always routed to
the metadata bucket, as is any key that is not a declared prop. -/
def ismetaOf (props : List String) (key : String) : Bool :=
  key = "meta" || key = "id" || !(props.contains key)

/-- The += of apply's append branch for the value shapes Python
supports. -/
def pyAdd : Value → Value → Except PyErr Value
  | .int a, .int b => .ok (.int (a + b))
  | .int a, .float b => .ok (.float (mkRat (a * b.den + b.num) b.den))
  | .float a, .int b => .ok (.float (mkRat (a.num + b * a.den) a.den))
  | .float a, .float b => .ok (.float (a + b))
  | .str a, .str b => .ok (.str (a ++ b))
  | .list a, .list b => .ok (.list (a ++ b))
  | _, _ => .error (.typeError "unsupported operand types")

/-- One update entry of Point.apply: a string value that parses as a
truthy (non-zero) offset is first replaced by the dumped instant
utc_now() + offset; a leading plus marks an append; the key is then
routed to the metadata bucket or the store by ismetaOf; a None value
routed to meta deletes the metadata key.  The metadata bucket is the
dict stored under meta: mutating it in place and writing it back are
observationally equal on the store. -/
def applyOne (now : Int) (cls : PCls) (st : Dict) (key0 : String) (value0 : Value) :
    Except PyErr Dict := do
  let value ← (match value0 with
    | .str s => do
      let off ← parse_offset s
      match off with
      | some t =>
        if t ≠ 0 then
          let r := now + t
          if r < minDatetime ∨ maxDatetime < r then throw .overflowError
          else pure (Value.str (dump_datetime r))
        else pure value0
      | Option.none => pure value0
    | _ => pure value0)
  let (append, key) :=
    match key0.data with
    | '+' :: rest => (true, String.mk rest)
    | _ => (false, key0)
  let ismeta := ismetaOf (propsOf cls) key
  if ismeta then do
    let bucket ← (match dGet st "meta" with
      | .dict d => pure d
      | _ => throw (.typeError "meta bucket is not a mapping"))
    if append then
      match dictGet bucket key with
      | some old => do
        let v2 ← pyAdd old value
        pure (dictSet st "meta" (.dict (dictSet bucket key v2)))
      | Option.none => throw (.keyError key)
    else if isVNone value then do
      let b2 ← dictDel bucket key
      pure (dictSet st "meta" (.dict b2))
    else pure (dictSet st "meta" (.dict (dictSet bucket key value)))
  else
    if append then
      match dictGet st key with
      | some old => do
        let v2 ← pyAdd old value
        pure (dictSet st key v2)
      | Option.none => throw (.keyError key)
    else pure (dictSet st key value)

/-- Point.apply over an update mapping, entries in order. -/
def applyUpdates (now : Int) (cls : PCls) (st : Dict) :
    List (String × Value) → Except PyErr Dict
  | [] => .ok st
  | (k, v) :: rest => do
    let st2 ← applyOne now cls st k v
    applyUpdates now cls st2 rest

/-! PointQuery (Farmbot lines 245-313): clause compilation into a
server-side filter plus local predicate closures, and plan execution. -/

inductive CmpOp where
  | lt
  | le
  | gt
  | ge
deriving DecidableEq, Repr

def evalCmpInt : CmpOp → Int → Int → Bool
  | .lt, a, b => a < b
  | .le, a, b => a ≤ b
  | .gt, a, b => a > b
  | .ge, a, b => a ≥ b

def evalCmpQ : CmpOp → ℚ → ℚ → Bool
  | .lt, a, b => a < b
  | .le, a, b => a ≤ b
  | .gt, a, b => a > b
  | .ge, a, b => a ≥ b

/-- The captured accessor of a compiled clause (PointQuery line 270):
either v["meta"][key] or v[key]. -/
structure Getter where
  ismeta : Bool
  key : String
deriving DecidableEq, Repr

/-- Subscription v[k] on a Python value: mappings look up the key,
raising KeyError when absent; every other shape relevant here - in
particular an entity instance, which defines no __getitem__ - raises
TypeError. -/
def pySubscript (v : Value) (k : String) : Except PyErr Value :=
  match v with
  | .dict d =>
    match dictGet d k with
    | some x => .ok x
    | Option.none => .error (.keyError k)
  | _ => .error (.typeError "object is not subscriptable")

def getField (g : Getter) (v : Value) : Except PyErr Value :=
  if g.ismeta then do
    let b ← pySubscript v "meta"
    pySubscript b g.key
  else pySubscript v g.key

/-- A compiled local predicate closure, defunctionalized: the three
lambda shapes appended by PointQuery.__init__ at lines 284, 294 and 297
together with their captured data. -/
inductive Pred where
  | dateCmp (g : Getter) (op : CmpOp) (date : Option Int)
  | numCmp (g : Getter) (op : CmpOp) (num : ℚ)
  | neqLit (g : Getter) (value : Value)
deriving Repr

/-- Application of a compiled predicate to a value, exactly as the
lambda bodies read: op(parse_datetime(get(v)), date), or
op(float(get(v)), number), or get(v) != value.  Comparing None with a
datetime (either side) raises TypeError in Python 3. -/
def evalPred (now : Int) : Pred → Value → Except PyErr Bool
  | .dateCmp g op date, v => do
    let fv ← getField g v
    let pd ← parse_datetime now fv
    match pd, date with
    | some a, some b => .ok (evalCmpInt op a b)
    | _, _ => .error (.typeError "not supported between instances")
  | .numCmp g op num, v => do
    let fv ← getField g v
    let q ← pyFloat fv
    .ok (evalCmpQ op q num)
  | .neqLit g val, v => do
    let fv ← getField g v
    .ok (!pyEq fv val)

/-- The effect of one clause on the plan under construction: either a
server-side filter entry (meta-routed or direct) or an appended local
predicate. -/
inductive ClauseEffect where
  | toFilter (ismeta : Bool) (key : String) (v : Value)
  | toPred (p : Pred)
deriving Repr

/-- The leading negation marker stripping of PointQuery lines 264-268
(key.startswith and key[1:], on the character level). -/
def stripNeg (key : String) : Bool × String :=
  match key.data with
  | '!' :: rest => (true, String.mk rest)
  | _ => (false, key)

def opOfQual : Qual → Bool → CmpOp
  | .before, false => .lt
  | .before, true => .ge
  | .after, false => .gt
  | .after, true => .le

def opOfNum : Bool → Bool → CmpOp
  | true, false => .ge
  | true, true => .lt
  | false, false => .le
  | false, true => .gt

/-- Processing of one (key, value) clause by PointQuery.__init__ (lines
263-301).  A string value is tried against the date grammar, then - on
the possibly replaced value - against the numeric grammar; otherwise,
and for non-string values, a negated clause becomes an inequality
predicate and a plain clause a server-side filter entry.  A date match
without qualifier replaces the value by the normalized dump of the
computed instant and falls through; with a qualifier it emits a date
comparison predicate capturing the parsed instant. -/
def processClause (now : Int) (props : List String) (rawKey : String) (value : Value) :
    Except PyErr ClauseEffect :=
  let (negate, key) := stripNeg rawKey
  let ismeta := ismetaOf props key
  let g : Getter := ⟨ismeta, key⟩
  let literalStep : Value → ClauseEffect := fun v =>
    if negate then .toPred (.neqLit g v) else .toFilter ismeta key v
  let numTest : String → ClauseEffect := fun s2 =>
    match rxnumMatch s2 with
    | some (least, num) => .toPred (.numCmp g (opOfNum least negate) num)
    | Option.none => literalStep (.str s2)
  match value with
  | .str s =>
    match rxdateMatch s with
    | some (qual, instant) => do
      let date ← parse_datetime now (.str instant)
      match qual with
      | Option.none =>
        match date with
        | some m => .ok (numTest (dump_datetime m))
        | Option.none => .error (.attributeError "strip")
      | some q => .ok (.toPred (.dateCmp g (opOfQual q negate) date))
    | Option.none => .ok (numTest s)
  | _ => .ok (literalStep value)

/-- Recording one clause effect on the filter object and predicate list:
meta-routed entries go into the nested mapping under the meta key. -/
def applyEffect (f : Dict) (preds : List Pred) : ClauseEffect → Except PyErr (Dict × List Pred)
  | .toPred p => .ok (f, preds ++ [p])
  | .toFilter true k v =>
    match dictGet f "meta" with
    | some (.dict b) => .ok (dictSet f "meta" (.dict (dictSet b k v)), preds)
    | some _ => .error (.typeError "object does not support item assignment")
    | Option.none => .error (.keyError "meta")
  | .toFilter false k v => .ok (dictSet f k v, preds)

def compileClauses (now : Int) (props : List String) (f : Dict) (preds : List Pred) :
    List (String × Value) → Except PyErr (Dict × List Pred)
  | [] => .ok (f, preds)
  | (k, v) :: rest => do
    let eff ← processClause now props k v
    let (f2, p2) ← applyEffect f preds eff
    compileClauses now props f2 p2 rest

/-- A compiled query plan.  PointQuery.__init__ assigns the predicates
and filter attributes but never self.factory, so the factory attribute
of a freshly compiled plan is absent. -/
structure QueryPlan where
  filter : Dict
  predicates : List Pred
  factoryAttr : Option (Value → Except PyErr Value)

/-- PointQuery.__init__ for an already-structured clause list: the
filter starts with the discriminator entry and an empty meta bucket,
clauses are folded in order, and an empty meta bucket is deleted at the
end. -/
def compilePointQuery (now : Int) (cls : PCls) (query : List (String × Value)) :
    Except PyErr QueryPlan := do
  let f0 : Dict := [("pointer_type", .str (get_pointer_type cls)), ("meta", .dict [])]
  let (f, preds) ← compileClauses now (propsOf cls) f0 [] query
  let f2 ← (match dictGet f "meta" with
    | some (.dict b) => if b.isEmpty then dictDel f "meta" else .ok f
    | some v => if pyTruthy v then .ok f else dictDel f "meta"
    | Option.none => .error (.keyError "meta"))
  .ok ⟨f2, preds, Option.none⟩

/-- The inner predicate loop of PointQuery.execute (lines 309-311): each
predicate is called on the typed record, but the only statement under
the test of its result is a continue of this innermost loop, which has
no effect; the verdicts are therefore discarded, and only an exception
from a predicate call escapes. -/
def checkPreds (now : Int) (preds : List Pred) (v : Value) : Except PyErr Unit :=
  match preds with
  | [] => .ok ()
  | p :: rest => do
    let _ ← evalPred now p v
    checkPreds now rest v

/-- The iteration of PointQuery.execute (lines 306-313) given the value
of the factory attribute: each raw record is converted, every predicate
is called on the typed record, and the record is appended to the result
unconditionally. -/
def executeLoop (now : Int) (factory : Value → Except PyErr Value) (preds : List Pred) :
    List Value → Except PyErr (List Value)
  | [] => .ok []
  | d :: rest => do
    let p ← factory d
    checkPreds now preds p
    let r ← executeLoop now factory preds rest
    .ok (p :: r)

/-- PointQuery.execute: the generator expression evaluates self.factory
lazily, on the first iteration; an empty search result therefore
returns an empty list, while a non-empty one reads the never-assigned
factory attribute, raising AttributeError, before any conversion or
predicate runs. -/
def executePlan (now : Int) (plan : QueryPlan) (searchResults : List Value) :
    Except PyErr (List Value) :=
  match searchResults with
  | [] => .ok []
  | _ =>
    match plan.factoryAttr with
    | Option.none => .error (.attributeError "factory")
    | some f => executeLoop now f plan.predicates searchResults

/-- Farmbot.deserialize (lines 319-324): a failing conversion logs a
message carrying the target schema name and the offending payload and
re-raises the original exception unchanged.  The log channel is
modelled structurally as the list of (schema name, payload) pairs
passed to device.log. -/
def deserialize (schemaName : String) (factory : Value → Except PyErr Value) (data : Value) :
    List (String × Value) × Except PyErr Value :=
  match factory data with
  | .ok v => ([], .ok v)
  | .error e => ([(schemaName, data)], .error e)

/-! Auxiliary lemmas about the grammar scanners. -/

theorem rxnumCore_shape (l : List Char) (x : Bool × ℚ) (h : rxnumCore l = some x) :
    ∃ c r, l = 'a' :: 't' :: c :: r := by
  match l with
  | [] => simp [rxnumCore] at h
  | [c0] => simp [rxnumCore] at h
  | [c0, c1] => simp [rxnumCore] at h
  | c0 :: c1 :: c :: r =>
    by_cases hc : (c0 = 'a' && c1 = 't' && isPySpace c) = true
    · have h0 : c0 = 'a' := by
        have := hc
        simp only [Bool.and_eq_true, decide_eq_true_eq] at this
        exact this.1.1
      have h1 : c1 = 't' := by
        have := hc
        simp only [Bool.and_eq_true, decide_eq_true_eq] at this
        exact this.1.2
      exact ⟨c, r, by rw [h0, h1]⟩
    · rw [rxnumCore, if_neg hc] at h
      exact absurd h (by simp)

theorem rxdateCore_at_none (c : Char) (r : List Char) :
    rxdateCore ('a' :: 't' :: c :: r) = Option.none := rfl

/-- A string matched by the numeric grammar is never matched by the date
grammar: its stripped form starts with "at", which fails the qualifier
literals and every instant alternative. -/
theorem rxdateMatch_none_of_rxnumMatch (s : String) (x : Bool × ℚ)
    (h : rxnumMatch s = some x) : rxdateMatch s = Option.none := by
  unfold rxnumMatch at h
  obtain ⟨c, r, hshape⟩ := rxnumCore_shape _ _ h
  unfold rxdateMatch
  rw [hshape, rxdateCore_at_none]
  rfl

theorem mem_of_mem_dropWhile (p : Char → Bool) (l : List Char) (c : Char)
    (h : c ∈ l.dropWhile p) : c ∈ l := by
  induction l with
  | nil => simp at h
  | cons hd tl ih =>
    by_cases hp : p hd
    · simp only [List.dropWhile_cons, hp, if_pos] at h
      exact List.mem_cons_of_mem _ (ih h)
    · simpa [List.dropWhile_cons, hp] using h

theorem mem_of_mem_stripChars (l : List Char) (c : Char)
    (h : c ∈ stripChars l) : c ∈ l := by
  unfold stripChars at h
  rw [List.mem_reverse] at h
  have h2 := mem_of_mem_dropWhile _ _ _ h
  rw [List.mem_reverse] at h2
  exact mem_of_mem_dropWhile _ _ _ h2

theorem natCharsAux_digit (fuel : Nat) :
    ∀ n, ∀ c ∈ natCharsAux fuel n, c.isDigit = true := by
  induction fuel with
  | zero => intro n c hc; simp [natCharsAux] at hc
  | succ f ih =>
    intro n c hc
    rw [natCharsAux] at hc
    by_cases h : n < 10
    · rw [if_pos h] at hc
      rcases List.mem_singleton.mp hc with rfl
      interval_cases n <;> decide
    · rw [if_neg h] at hc
      rcases List.mem_append.mp hc with hc2 | hc2
      · exact ih (n / 10) c hc2
      · rcases List.mem_singleton.mp hc2 with rfl
        have h10 : n % 10 < 10 := Nat.mod_lt _ (by omega)
        set k := n % 10 with hk
        interval_cases k <;> decide

theorem natChars_digit (n : Nat) : ∀ c ∈ natChars n, c.isDigit = true :=
  natCharsAux_digit (n + 1) n

theorem padZeros_natChars_digit (w n : Nat) :
    ∀ c ∈ padZeros w (natChars n), c.isDigit = true := by
  intro c hc
  rcases List.mem_append.mp hc with hc | hc
  · rw [List.eq_of_mem_replicate hc]; decide
  · exact natChars_digit n c hc

theorem yearChars_good (y : Int) :
    ∀ c ∈ yearChars y, c.isDigit = true ∨ c = '-' := by
  intro c hc
  unfold yearChars at hc
  by_cases hy : y < 0
  · simp only [hy, if_pos, List.mem_cons] at hc
    rcases hc with rfl | hc
    · exact Or.inr rfl
    · exact Or.inl (padZeros_natChars_digit _ _ c hc)
  · simp only [hy, if_neg] at hc
    exact Or.inl (padZeros_natChars_digit _ _ c hc)

theorem dumpDate_good (t : Int × Int × Int) :
    ∀ c ∈ dumpDate t, c.isDigit = true ∨ c = '-' := by
  rcases t with ⟨y, mo, dy⟩
  intro c hc
  simp only [dumpDate, List.mem_append, List.mem_cons] at hc
  have hy := yearChars_good y c
  have hp : ∀ x, c ∈ pad2 x → c.isDigit = true :=
    fun x h => padZeros_natChars_digit _ _ c h
  tauto

theorem dumpTime_good (rem : Nat) :
    ∀ c ∈ dumpTime rem, c.isDigit = true ∨ c = ':' ∨ c = '.' ∨ c = 'T' ∨ c = 'Z' := by
  intro c hc
  simp only [dumpTime, List.mem_append, List.mem_cons, List.mem_singleton] at hc
  have hp : ∀ x, c ∈ pad2 x → c.isDigit = true :=
    fun x h => padZeros_natChars_digit _ _ c h
  have hp6 : ∀ x, c ∈ pad6 x → c.isDigit = true :=
    fun x h => padZeros_natChars_digit _ _ c h
  tauto

/-- Every character of a dumped instant is a digit or one of the five
format literals; in particular none is the letter a. -/
theorem dumpDatetimeChars_good (m : Int) :
    ∀ c ∈ dumpDatetimeChars m,
      c.isDigit = true ∨ c = '-' ∨ c = ':' ∨ c = '.' ∨ c = 'T' ∨ c = 'Z' := by
  intro c hc
  rcases List.mem_append.mp hc with hc | hc
  · have hd := dumpDate_good _ c hc
    tauto
  · have ht := dumpTime_good _ c hc
    tauto

theorem dump_char_ne_a (m : Int) (c : Char) (hc : c ∈ dumpDatetimeChars m) :
    c ≠ 'a' := by
  rcases dumpDatetimeChars_good m c hc with h | h | h | h | h | h
  · rintro rfl; simp at h
  all_goals (rintro rfl; simp at h)

/-- The normalized dump of an instant never matches the numeric grammar:
its first surviving character is a digit or a literal, never the
letter a. -/
theorem rxnumMatch_dump_none (m : Int) :
    rxnumMatch (dump_datetime m) = Option.none := by
  unfold rxnumMatch dump_datetime
  match hs : stripChars (String.mk (dumpDatetimeChars m)).data with
  | [] => simp [rxnumCore]
  | [c0] => simp [rxnumCore]
  | [c0, c1] => simp [rxnumCore]
  | c0 :: c1 :: c :: r =>
    have hmem : c0 ∈ stripChars (dumpDatetimeChars m) := by
      rw [show (String.mk (dumpDatetimeChars m)).data = dumpDatetimeChars m from rfl] at hs
      rw [hs]; exact List.mem_cons_self _ _
    have hne : c0 ≠ 'a' := dump_char_ne_a m c0 (mem_of_mem_stripChars _ _ hmem)
    rw [rxnumCore, if_neg]
    simp [hne]

/-! Auxiliary lemmas about stores, default population and the
conversion pass. -/

theorem dictGet_setdefaultAll (props : List String) (d : Dict) (k : String) :
    dictGet (setdefaultAll props d) k =
      match dictGet d k with
      | some v => some v
      | Option.none => if k ∈ props then some Value.none else Option.none := by
  induction props generalizing d with
  | nil =>
    simp only [setdefaultAll, List.foldl_nil, List.not_mem_nil, if_neg]
    match dictGet d k with
    | some v => rfl
    | Option.none => simp
  | cons p ps ih =>
    show dictGet (setdefaultAll ps (dictSetdefault d p)) k = _
    rw [ih]
    by_cases hpk : p = k
    · subst hpk
      rw [dictGet_dictSetdefault_same]
      unfold dGet
      match hd : dictGet d p with
      | some v => simp [hd]
      | Option.none => simp [hd]
    · rw [dictGet_dictSetdefault_other _ _ _ hpk]
      match hd : dictGet d k with
      | some v => rfl
      | Option.none => simp [List.mem_cons, Ne.symm hpk]

/-- At the level of attribute reads the setdefault pass is invisible. -/
theorem dGet_setdefaultAll (props : List String) (d : Dict) (k : String) :
    dGet (setdefaultAll props d) k = dGet d k := by
  unfold dGet
  rw [dictGet_setdefaultAll]
  match hd : dictGet d k with
  | some v => rfl
  | Option.none => by_cases h : k ∈ props <;> simp [h]

/-- setdefault leaves a store unchanged when every listed key is already
present. -/
theorem setdefaultAll_eq_of_present (props : List String) (d : Dict)
    (h : ∀ k ∈ props, (dictGet d k).isSome) : setdefaultAll props d = d := by
  induction props with
  | nil => rfl
  | cons p ps ih =>
    show setdefaultAll ps (dictSetdefault d p) = d
    have hp : (dictGet d p).isSome := h p (List.mem_cons_self _ _)
    have hd : dictSetdefault d p = d := by
      unfold dictSetdefault
      match hg : dictGet d p with
      | some v => rfl
      | Option.none => rw [hg] at hp; simp at hp
    rw [hd]
    exact ih (fun k hk => h k (List.mem_cons_of_mem _ hk))

/-- A conditional assignment to another key does not change a lookup. -/
theorem dictGet_condSet_other (cond : Prop) [Decidable cond] (d : Dict)
    (k1 k : String) (v : Value) (h : k1 ≠ k) :
    dictGet (if cond then dictSet d k1 v else d) k = dictGet d k := by
  split
  · exact dictGet_dictSet_other _ _ _ _ h
  · rfl

/-- The self step of a default population: assign when the current
value is None. -/
theorem dictGet_condSet_self (d : Dict) (k : String) (dflt : Value) :
    dictGet (if isVNone (dGet d k) then dictSet d k dflt else d) k =
      if isVNone (dGet d k) then some dflt else dictGet d k := by
  split
  · exact dictGet_dictSet_same _ _ _
  · rfl

/-- dGet versions of the conditional-assignment lemmas. -/
theorem dGet_condSet_other (cond : Prop) [Decidable cond] (d : Dict)
    (k1 k : String) (v : Value) (h : k1 ≠ k) :
    dGet (if cond then dictSet d k1 v else d) k = dGet d k := by
  unfold dGet
  rw [dictGet_condSet_other _ _ _ _ _ h]

theorem dGet_condSet_self (d : Dict) (k : String) (dflt : Value) :
    dGet (if isVNone (dGet d k) then dictSet d k dflt else d) k =
      if isVNone (dGet d k) then dflt else dGet d k := by
  split
  · unfold dGet
    rw [dictGet_dictSet_same]
    rfl
  · rfl

/-- Reading one of the defaultable keys after Point.__init__: the value
is the declared default exactly when the incoming value was None, and
the incoming value otherwise. -/
theorem dGet_pointInit_meta (cls : PCls) (st0 : Dict) :
    dGet (pointInitDefaults cls st0) "meta" =
      if isVNone (dGet st0 "meta") then Value.dict [] else dGet st0 "meta" := by
  simp only [pointInitDefaults]
  rw [dGet_condSet_other _ _ _ _ _ (by decide),
      dGet_condSet_other _ _ _ _ _ (by decide),
      dGet_condSet_other _ _ _ _ _ (by decide),
      dGet_condSet_other _ _ _ _ _ (by decide),
      dGet_condSet_self,
      dGet_condSet_other _ _ _ _ _ (by decide)]

theorem dGet_pointInit_x (cls : PCls) (st0 : Dict) :
    dGet (pointInitDefaults cls st0) "x" =
      if isVNone (dGet st0 "x") then Value.int 0 else dGet st0 "x" := by
  simp only [pointInitDefaults]
  rw [dGet_condSet_other _ _ _ _ _ (by decide),
      dGet_condSet_other _ _ _ _ _ (by decide),
      dGet_condSet_other _ _ _ _ _ (by decide),
      dGet_condSet_self,
      dGet_condSet_other _ _ _ _ _ (by decide),
      dGet_condSet_other _ _ _ _ _ (by decide)]

theorem dGet_pointInit_y (cls : PCls) (st0 : Dict) :
    dGet (pointInitDefaults cls st0) "y" =
      if isVNone (dGet st0 "y") then Value.int 0 else dGet st0 "y" := by
  simp only [pointInitDefaults]
  rw [dGet_condSet_other _ _ _ _ _ (by decide),
      dGet_condSet_other _ _ _ _ _ (by decide),
      dGet_condSet_self,
      dGet_condSet_other _ _ _ _ _ (by decide),
      dGet_condSet_other _ _ _ _ _ (by decide),
      dGet_condSet_other _ _ _ _ _ (by decide)]

theorem dGet_pointInit_z (cls : PCls) (st0 : Dict) :
    dGet (pointInitDefaults cls st0) "z" =
      if isVNone (dGet st0 "z") then Value.int 0 else dGet st0 "z" := by
  simp only [pointInitDefaults]
  rw [dGet_condSet_other _ _ _ _ _ (by decide),
      dGet_condSet_self,
      dGet_condSet_other _ _ _ _ _ (by decide),
      dGet_condSet_other _ _ _ _ _ (by decide),
      dGet_condSet_other _ _ _ _ _ (by decide),
      dGet_condSet_other _ _ _ _ _ (by decide)]

theorem dGet_pointInit_radius (cls : PCls) (st0 : Dict) :
    dGet (pointInitDefaults cls st0) "radius" =
      if isVNone (dGet st0 "radius") then Value.float 0 else dGet st0 "radius" := by
  simp only [pointInitDefaults]
  rw [dGet_condSet_self,
      dGet_condSet_other _ _ _ _ _ (by decide),
      dGet_condSet_other _ _ _ _ _ (by decide),
      dGet_condSet_other _ _ _ _ _ (by decide),
      dGet_condSet_other _ _ _ _ _ (by decide),
      dGet_condSet_other _ _ _ _ _ (by decide)]

theorem hGet_hSet_same (h : Heap) (r : Nat) (d : Dict) (hr : r < h.length) :
    hGet (hSet h r d) r = d := by
  induction h generalizing r with
  | nil => simp at hr
  | cons hd tl ih =>
    match r with
    | 0 => rfl
    | n + 1 => exact ih n (by simpa using hr)

theorem hSet_length (h : Heap) (r : Nat) (d : Dict) :
    (hSet h r d).length = h.length := by
  unfold hSet
  exact List.length_set h r d

/-- The conversion pass of EntityFactory.make: the final heap keeps its
shape, keys outside the schema are untouched in the caller's mapping,
and each declared key holds the converted value computed from the
mapping's original entry (or None when absent). -/
theorem makeConvert_spec (propsF : List (String × (Value → Except PyErr Value))) :
    ∀ (h h2 : Heap) (r : Nat), r < h.length →
    (propsF.map Prod.fst).Nodup →
    makeConvert propsF h r = .ok h2 →
    h2.length = h.length ∧
    (∀ k, k ∉ propsF.map Prod.fst → dictGet (hGet h2 r) k = dictGet (hGet h r) k) ∧
    (∀ p ∈ propsF, ∃ v, p.2 (dGet (hGet h r) p.1) = .ok v ∧
      dictGet (hGet h2 r) p.1 = some v) := by
  induction propsF with
  | nil =>
    intro h h2 r hr _ hmk
    rw [makeConvert] at hmk
    cases hmk
    exact ⟨rfl, fun k _ => rfl, by simp⟩
  | cons pf rest ih =>
    intro h h2 r hr hnd hmk
    obtain ⟨k, f⟩ := pf
    rw [makeConvert] at hmk
    match hf : f (dGet (hGet h r) k) with
    | .error e =>
      rw [hf] at hmk
      exact absurd hmk (by simp)
    | .ok v =>
      rw [hf] at hmk
      have hrec : makeConvert rest (hSet h r (dictSet (hGet h r) k v)) r = .ok h2 := hmk
      have hnd2 : k ∉ rest.map Prod.fst ∧ (rest.map Prod.fst).Nodup := by
        rw [List.map_cons] at hnd
        exact List.nodup_cons.mp hnd
      have hr2 : r < (hSet h r (dictSet (hGet h r) k v)).length := by
        rw [hSet_length]; exact hr
      have hg2 : hGet (hSet h r (dictSet (hGet h r) k v)) r = dictSet (hGet h r) k v :=
        hGet_hSet_same _ _ _ hr
      obtain ⟨hlen, hframe, hmem⟩ := ih _ h2 r hr2 hnd2.2 hrec
      refine ⟨by rw [hlen, hSet_length], ?_, ?_⟩
      · intro k2 hk2
        have hk2a : k2 ≠ k := by
          intro he
          exact hk2 (by simp [he])
        have hk2b : k2 ∉ rest.map Prod.fst := by
          intro hm
          exact hk2 (by simp [hm])
        rw [hframe k2 hk2b, hg2, dictGet_dictSet_other _ _ _ _ (Ne.symm hk2a)]
      · intro p hp
        rcases List.mem_cons.mp hp with rfl | hp2
        · refine ⟨v, hf, ?_⟩
          rw [hframe k hnd2.1, hg2, dictGet_dictSet_same]
        · obtain ⟨v2, hv2, hsto⟩ := hmem p hp2
          have hpk : k ≠ p.1 := by
            intro he
            exact hnd2.1 (he ▸ List.mem_map_of_mem Prod.fst hp2)
          refine ⟨v2, ?_, hsto⟩
          rw [← hv2]
          unfold dGet
          rw [hg2, dictGet_dictSet_other _ _ _ _ hpk]

/-- Construction from a non-empty mapping adopts it: the single-cell
instantiation used by the concrete construction theorems. -/
theorem pointConstruct_nonempty (cls : PCls) (d : Dict) (hne : d.isEmpty = false) :
    pointConstruct cls [d] (some 0) =
      ([pointInitDefaults
          (if cls = .point && !d.isEmpty then get_point_type (dGet d "pointer_type") else cls)
          (setdefaultAll
            (propsOf (if cls = .point && !d.isEmpty then get_point_type (dGet d "pointer_type") else cls))
            d)], 0,
        (if cls = .point && !d.isEmpty then get_point_type (dGet d "pointer_type") else cls)) := by
  match d, hne with
  | hd :: tl, _ => rfl

theorem pointConstruct_empty_map (cls : PCls) :
    pointConstruct cls [[]] (some 0) =
      ([[], pointInitDefaults cls (setdefaultAll (propsOf cls) [])], 1, cls) := by
  cases cls <;> rfl

theorem constructedStore_empty (cls : PCls) :
    constructedStore cls [] = pointInitDefaults cls (setdefaultAll (propsOf cls) []) := by
  unfold constructedStore
  rw [pointConstruct_empty_map]
  rfl

theorem constructedStore_nonempty (cls : PCls) (d : Dict) (hne : d.isEmpty = false) :
    constructedStore cls d =
      pointInitDefaults
        (if cls = .point && !d.isEmpty then get_point_type (dGet d "pointer_type") else cls)
        (setdefaultAll
          (propsOf (if cls = .point && !d.isEmpty then get_point_type (dGet d "pointer_type") else cls))
          d) := by
  unfold constructedStore
  rw [pointConstruct_nonempty _ _ hne]
  rfl

/-! Claim theorems. -/

/-- C2: the conversion function resolved for an optional shape is
claimed to map None and the string None to absence and to delegate any
other input to the inner conversion.  In the code the lambda's free
variable is late-bound to the lambda itself, so on every input that is
not None or the string None the function re-enters itself unchanged and
never terminates, for any stack budget: CPython raises RecursionError.
The inner conversion is never consulted. -/
theorem optional_factory_diverges (fuel : Nat) (val : Value)
    (h : isAbsentTok val = false) :
    optionalFactoryFuel fuel val = .error .recursionError := by
  induction fuel with
  | zero => rfl
  | succ n ih =>
    rw [optionalFactoryFuel, if_neg (by simp [h])]
    exact ih

/-- Witness for C2: the optional-datetime conversion applied to a
perfectly valid ISO instant string exhausts any stack budget. -/
theorem optional_factory_diverges_witness :
    isAbsentTok (Value.str "2024-06-01T00:00:00.000Z") = false ∧
    optionalFactoryFuel 1000 (Value.str "2024-06-01T00:00:00.000Z") =
      .error .recursionError :=
  ⟨by decide, optional_factory_diverges 1000 _ (by decide)⟩

/-- C3: the compiler is claimed to compute every grammar-accepted
instant expression as now plus the stated offset without raising.  In
the code the instant "now" parses to a zero timedelta, which is falsy,
so parse_datetime falls through to strptime("now") and raises
ValueError; and the year unit is passed to timedelta as the invalid
keyword "years", raising TypeError - even though the date grammar
accepts both forms.  Compiling a clause holding "now" therefore
raises. -/
theorem now_and_year_instants_raise (now : Int) :
    rxdateMatch "now" = some (Option.none, "now") ∧
    parse_offset "now" = .ok (some 0) ∧
    parse_datetime now (.str "now") =
      .error (.valueError "time data does not match format") ∧
    rxdateMatch "2 years ago" = some (Option.none, "2 years ago") ∧
    parse_datetime now (.str "2 years ago") =
      .error (.typeError "years is an invalid keyword argument") ∧
    compilePointQuery now .point [("updated_at", .str "now")] =
      .error (.valueError "time data does not match format") :=
  ⟨rfl, rfl, rfl, rfl, rfl, rfl⟩

/-- C8 counterexample: deserialization failure is claimed to surface a
DeserializationError carrying the schema name and payload; the code
defines no such exception type - it logs the name and payload and
re-raises the inner exception unchanged, here a bare TypeError from
int(None) that carries neither. -/
theorem deserialize_unwrapped_error :
    deserialize "Device" intFactory .none =
      ([("Device", Value.none)],
        .error (.typeError "int() argument must be a string or a number, not NoneType")) ∧
    (deserialize "Device" intFactory .none).2 = intFactory .none :=
  ⟨rfl, rfl⟩

/-- C8 amended: whenever conversion into a declared schema fails,
deserialize logs a message carrying the target schema's name and the
offending raw payload and re-raises the original exception unchanged to
the caller; the failure is never coerced to a default value. -/
theorem deserialize_logs_and_reraises (schemaName : String)
    (factory : Value → Except PyErr Value) (data : Value) (e : PyErr)
    (h : factory data = .error e) :
    deserialize schemaName factory data = ([(schemaName, data)], .error e) := by
  unfold deserialize
  rw [h]

/-- Witness for the amended C8 at a concrete failing conversion. -/
theorem deserialize_logs_and_reraises_witness :
    intFactory .none =
      .error (.typeError "int() argument must be a string or a number, not NoneType") ∧
    deserialize "Device" intFactory .none =
      ([("Device", Value.none)],
        .error (.typeError "int() argument must be a string or a number, not NoneType")) :=
  ⟨rfl, deserialize_logs_and_reraises _ _ _ _ rfl⟩

/-- C9: both the query compiler and the record update operation route
the keys meta and id to the metadata bucket although both are declared
fields of the point schema, so metadata routing is not determined by
declaredness alone.  The clause (id, 5) lands in the nested meta
sub-filter of the server-side filter object, and an update of id mutates
the metadata bucket while the declared id field keeps its value. -/
theorem meta_id_always_meta_routed :
    "meta" ∈ pointProps ∧ "id" ∈ pointProps ∧
    ismetaOf pointProps "meta" = true ∧ ismetaOf pointProps "id" = true ∧
    ismetaOf pointProps "radius" = false ∧
    processClause 0 pointProps "id" (.int 5) = .ok (.toFilter true "id" (.int 5)) ∧
    processClause 0 pointProps "meta" (.dict [("c", .str "red")]) =
      .ok (.toFilter true "meta" (.dict [("c", .str "red")])) ∧
    (compilePointQuery 0 .point [("id", .int 5)]).map (fun p => p.filter) =
      .ok [("pointer_type", .str "GenericPointer"), ("meta", .dict [("id", .int 5)])] ∧
    applyOne 0 .plant [("id", .int 1), ("meta", .dict [])] "id" (.int 5) =
      .ok [("id", .int 1), ("meta", .dict [("id", .int 5)])] ∧
    applyOne 0 .plant [("id", .int 1), ("meta", .dict [])] "meta" (.int 7) =
      .ok [("id", .int 1), ("meta", .dict [("meta", .int 7)])] :=
  ⟨by decide, by decide, rfl, rfl, by decide, rfl, rfl, rfl, rfl, rfl⟩

theorem hGet_single (a : Dict) : hGet [a] 0 = a := rfl

theorem hGet_pair_one (a b : Dict) : hGet [a, b] 1 = b := rfl

/-- If a default is not None, a value-or-default is never None. -/
theorem isVNone_ite_false (v dflt : Value) (h : isVNone dflt = false) :
    isVNone (if isVNone v then dflt else v) = false := by
  by_cases hv : isVNone v = true
  · simp [hv, h]
  · simp only [Bool.not_eq_true] at hv
    simp [hv]

/-- The five defaultable fields of a freshly populated point store, in
terms of the incoming mapping. -/
theorem point_defaults_core (cls2 : PCls) (d : Dict) :
    (dGet (pointInitDefaults cls2 (setdefaultAll (propsOf cls2) d)) "x" =
      if isVNone (dGet d "x") then Value.int 0 else dGet d "x") ∧
    (dGet (pointInitDefaults cls2 (setdefaultAll (propsOf cls2) d)) "y" =
      if isVNone (dGet d "y") then Value.int 0 else dGet d "y") ∧
    (dGet (pointInitDefaults cls2 (setdefaultAll (propsOf cls2) d)) "z" =
      if isVNone (dGet d "z") then Value.int 0 else dGet d "z") ∧
    (dGet (pointInitDefaults cls2 (setdefaultAll (propsOf cls2) d)) "radius" =
      if isVNone (dGet d "radius") then Value.float 0 else dGet d "radius") ∧
    (dGet (pointInitDefaults cls2 (setdefaultAll (propsOf cls2) d)) "meta" =
      if isVNone (dGet d "meta") then Value.dict [] else dGet d "meta") := by
  refine ⟨?_, ?_, ?_, ?_, ?_⟩
  · rw [dGet_pointInit_x, dGet_setdefaultAll]
  · rw [dGet_pointInit_y, dGet_setdefaultAll]
  · rw [dGet_pointInit_z, dGet_setdefaultAll]
  · rw [dGet_pointInit_radius, dGet_setdefaultAll]
  · rw [dGet_pointInit_meta, dGet_setdefaultAll]

/-- C6: constructing the base point type with a registered discriminator
yields that subtype; an unrecognized discriminator (Bogus) or a missing
one yields the base type; and a missing discriminator is defaulted to
the sentinel GenericPointer, which is not the base class name Point. -/
theorem point_polymorphic_dispatch (d : Dict) (name : String) (cls : PCls)
    (hreg : (name, cls) ∈ pointTypeRegistry)
    (hd : dGet d "pointer_type" = .str name)
    (hne : d.isEmpty = false) :
    (pointConstruct .point [d] (some 0)).2.2 = cls ∧
    (pointConstruct .point [[("pointer_type", .str "Bogus")]] (some 0)).2.2 = .point ∧
    (pointConstruct .point [[("name", .str "Weather")]] (some 0)).2.2 = .point ∧
    dGet (constructedStore .point [("name", .str "Weather")]) "pointer_type" =
      .str "GenericPointer" ∧
    get_pointer_type .point = "GenericPointer" ∧ "GenericPointer" ≠ "Point" := by
  refine ⟨?_, rfl, rfl, rfl, rfl, by decide⟩
  rw [pointConstruct_nonempty _ _ hne]
  simp only [hne, hd, Bool.not_false, Bool.and_true, decide_True, if_pos]
  rcases List.mem_cons.mp hreg with h | h2
  · rw [Prod.mk.injEq] at h
    obtain ⟨rfl, rfl⟩ := h
    rfl
  · rcases List.mem_singleton.mp h2 with h3
    rw [Prod.mk.injEq] at h3
    obtain ⟨rfl, rfl⟩ := h3
    rfl

/-- C7: for every point variant, direct construction from a mapping in
which the coordinates, radius or metadata are absent or None yields
x = y = z = 0, radius = 0.0 and an empty metadata mapping, and none of
these five fields is ever left None after construction. -/
theorem point_construction_defaults (cls : PCls) (d : Dict) :
    (dGet (constructedStore cls d) "x" =
      if isVNone (dGet d "x") then Value.int 0 else dGet d "x") ∧
    (dGet (constructedStore cls d) "y" =
      if isVNone (dGet d "y") then Value.int 0 else dGet d "y") ∧
    (dGet (constructedStore cls d) "z" =
      if isVNone (dGet d "z") then Value.int 0 else dGet d "z") ∧
    (dGet (constructedStore cls d) "radius" =
      if isVNone (dGet d "radius") then Value.float 0 else dGet d "radius") ∧
    (dGet (constructedStore cls d) "meta" =
      if isVNone (dGet d "meta") then Value.dict [] else dGet d "meta") ∧
    isVNone (dGet (constructedStore cls d) "x") = false ∧
    isVNone (dGet (constructedStore cls d) "y") = false ∧
    isVNone (dGet (constructedStore cls d) "z") = false ∧
    isVNone (dGet (constructedStore cls d) "radius") = false ∧
    isVNone (dGet (constructedStore cls d) "meta") = false := by
  have hfields :
      (dGet (constructedStore cls d) "x" =
        if isVNone (dGet d "x") then Value.int 0 else dGet d "x") ∧
      (dGet (constructedStore cls d) "y" =
        if isVNone (dGet d "y") then Value.int 0 else dGet d "y") ∧
      (dGet (constructedStore cls d) "z" =
        if isVNone (dGet d "z") then Value.int 0 else dGet d "z") ∧
      (dGet (constructedStore cls d) "radius" =
        if isVNone (dGet d "radius") then Value.float 0 else dGet d "radius") ∧
      (dGet (constructedStore cls d) "meta" =
        if isVNone (dGet d "meta") then Value.dict [] else dGet d "meta") := by
    by_cases hd : d.isEmpty
    · have hdz : d = [] := by
        cases d
        · rfl
        · simp at hd
      subst hdz
      rw [constructedStore_empty]
      exact point_defaults_core cls []
    · have hne : d.isEmpty = false := by simpa using hd
      rw [constructedStore_nonempty _ _ hne]
      exact point_defaults_core _ d
  obtain ⟨hx, hy, hz, hr, hm⟩ := hfields
  refine ⟨hx, hy, hz, hr, hm, ?_, ?_, ?_, ?_, ?_⟩
  · rw [hx]; exact isVNone_ite_false _ _ rfl
  · rw [hy]; exact isVNone_ite_false _ _ rfl
  · rw [hz]; exact isVNone_ite_false _ _ rfl
  · rw [hr]; exact isVNone_ite_false _ _ rfl
  · rw [hm]; exact isVNone_ite_false _ _ rfl

/-- Witness for C6 at the concrete discriminator Plant. -/
theorem point_polymorphic_dispatch_witness :
    ("Plant", PCls.plant) ∈ pointTypeRegistry ∧
    dGet [("pointer_type", Value.str "Plant"), ("x", Value.int 1)] "pointer_type" =
      .str "Plant" ∧
    (pointConstruct .point [[("pointer_type", .str "Plant"), ("x", .int 1)]] (some 0)).2.2 =
      .plant :=
  ⟨by decide, rfl,
    (point_polymorphic_dispatch [("pointer_type", Value.str "Plant"), ("x", Value.int 1)]
      "Plant" .plant (by decide) rfl rfl).1⟩

theorem except_bind_ok {α β : Type} (a : α) (f : α → Except PyErr β) :
    (Except.ok a >>= f) = f a := rfl

theorem except_bind_err {α β : Type} (e : PyErr) (f : α → Except PyErr β) :
    ((Except.error e : Except PyErr α) >>= f) = .error e := rfl

/-- Entity.__new__ on a non-empty mapping: the mapping is adopted as the
instance store (the returned reference is the caller's reference) and
exactly the missing declared keys are inserted with None. -/
theorem entityNew_adopts (props : List String) (h : Heap) (r : Nat)
    (hr : r < h.length) (hne : hGet h r ≠ []) :
    (entityNew props h (some r)).2 = r ∧
    ∀ k, dictGet (hGet (entityNew props h (some r)).1 r) k =
      (match dictGet (hGet h r) k with
       | some v => some v
       | Option.none => if k ∈ props then some Value.none else Option.none) := by
  have hie : (hGet h r).isEmpty = false := by
    match hg : hGet h r with
    | [] => exact absurd hg hne
    | _ :: _ => rfl
  have hstep : entityNew props h (some r) =
      (hSet h r (setdefaultAll props (hGet h r)), r) := by
    simp only [entityNew, hie, Bool.false_eq_true, if_false]
  rw [hstep]
  refine ⟨rfl, ?_⟩
  intro k
  show dictGet (hGet (hSet h r (setdefaultAll props (hGet h r))) r) k = _
  rw [hGet_hSet_same _ _ _ hr, dictGet_setdefaultAll]

/-- Entity.__new__ on an empty mapping: a fresh store is allocated and
the caller's mapping is left untouched. -/
theorem entityNew_fresh (props : List String) (h : Heap) (r : Nat)
    (hr : r < h.length) (hnil : hGet h r = []) :
    (entityNew props h (some r)).2 = h.length ∧
    hGet (entityNew props h (some r)).1 r = hGet h r := by
  have hie : (hGet h r).isEmpty = true := by rw [hnil]; rfl
  have hstep : entityNew props h (some r) =
      (h ++ [setdefaultAll props []], h.length) := by
    simp only [entityNew, hie, if_true]
    rfl
  rw [hstep]
  refine ⟨rfl, ?_⟩
  show hGet (h ++ [setdefaultAll props []]) r = hGet h r
  unfold hGet
  rw [List.get?_append hr]

/-- C10 counterexample: constructing a point from an empty mapping does
not mutate the caller's mapping and does not adopt it as the backing
store - the record gets a fresh store (reference 1, not the caller's 0)
with its own populated fields, while the caller's mapping stays empty
with no keys inserted. -/
theorem empty_mapping_not_adopted :
    (pointConstruct .point [[]] (some 0)).2.1 = 1 ∧
    (pointConstruct .point [[]] (some 0)).2.1 ≠ 0 ∧
    hGet (pointConstruct .point [[]] (some 0)).1 0 = [] ∧
    dGet (hGet (pointConstruct .point [[]] (some 0)).1 1) "x" = Value.int 0 :=
  ⟨rfl, by decide, rfl, rfl⟩

/-- C10 amended: provided the mapping is non-empty at adoption time -
for factory construction, whenever the schema declares at least one
field; for direct construction, whenever the input mapping is non-empty
- the record's backing store is the caller's very mapping (the same
reference, so later record mutations are visible through it); the
factory path writes each declared field's converted value back into the
mapping in place, computed from the original entry or None when absent,
leaving undeclared keys untouched; the direct path inserts exactly the
missing declared keys with None.  An empty mapping is left untouched and
the record receives a fresh private store. -/
theorem construction_adopts_nonempty_mapping :
    (∀ (propsF : List (String × (Value → Except PyErr Value))) (h h2 : Heap) (r r2 : Nat),
      r < h.length → (propsF.map Prod.fst).Nodup → propsF ≠ [] →
      entityMake propsF h r = .ok (h2, r2) →
      r2 = r ∧
      (∀ p ∈ propsF, ∃ v, p.2 (dGet (hGet h r) p.1) = .ok v ∧
        dictGet (hGet h2 r) p.1 = some v) ∧
      (∀ k, k ∉ propsF.map Prod.fst → dictGet (hGet h2 r) k = dictGet (hGet h r) k)) ∧
    (∀ (props : List String) (h : Heap) (r : Nat), r < h.length → hGet h r ≠ [] →
      (entityNew props h (some r)).2 = r ∧
      ∀ k, dictGet (hGet (entityNew props h (some r)).1 r) k =
        (match dictGet (hGet h r) k with
         | some v => some v
         | Option.none => if k ∈ props then some Value.none else Option.none)) ∧
    (∀ (props : List String) (h : Heap) (r : Nat), r < h.length → hGet h r = [] →
      (entityNew props h (some r)).2 = h.length ∧
      hGet (entityNew props h (some r)).1 r = hGet h r) := by
  refine ⟨?_, entityNew_adopts, entityNew_fresh⟩
  intro propsF h h2 r r2 hr hnd hpne hmk
  unfold entityMake at hmk
  match hmc : makeConvert propsF h r with
  | .error e =>
    rw [hmc, except_bind_err] at hmk
    exact absurd hmk (by simp)
  | .ok h3 =>
    rw [hmc, except_bind_ok] at hmk
    have hpair : entityNew (propsF.map Prod.fst) h3 (some r) = (h2, r2) := by
      injection hmk
    obtain ⟨hlen, hframe, hmem⟩ := makeConvert_spec propsF h h3 r hr hnd hmc
    have hr3 : r < h3.length := by rw [hlen]; exact hr
    have hne3 : hGet h3 r ≠ [] := by
      obtain ⟨p0, hp0⟩ : ∃ p, p ∈ propsF := by
        match propsF, hpne with
        | q :: rest, _ => exact ⟨q, List.mem_cons_self _ _⟩
      obtain ⟨v, _, hv⟩ := hmem p0 hp0
      intro hnil
      rw [hnil] at hv
      simp at hv
    obtain ⟨hradopt, hstore⟩ := entityNew_adopts (propsF.map Prod.fst) h3 r hr3 hne3
    have hr2r : r2 = r := by rw [← hradopt, hpair]
    have hh2 : h2 = (entityNew (propsF.map Prod.fst) h3 (some r)).1 := by rw [hpair]
    subst hh2
    refine ⟨hr2r, ?_, ?_⟩
    · intro p hp
      obtain ⟨v, hconv, hget3⟩ := hmem p hp
      refine ⟨v, hconv, ?_⟩
      rw [hstore p.1, hget3]
    · intro k hk
      rw [hstore k, hframe k hk]
      match hg : dictGet (hGet h r) k with
      | some v => rfl
      | Option.none => simp [hk]

/-- Witness for the amended C10 at a concrete one-field schema and
mapping. -/
theorem construction_adopts_nonempty_mapping_witness :
    (0 : Nat) < 1 ∧
    entityMake [("a", anyFactory)] [[("a", Value.int 1)]] 0 =
      .ok ([[("a", Value.int 1)]], 0) ∧
    (0 = 0 ∧
      (∀ p ∈ [(("a" : String), anyFactory)], ∃ v,
        p.2 (dGet (hGet [[("a", Value.int 1)]] 0) p.1) = .ok v ∧
        dictGet (hGet [[("a", Value.int 1)]] 0) p.1 = some v) ∧
      (∀ k, k ∉ [(("a" : String), anyFactory)].map Prod.fst →
        dictGet (hGet [[("a", Value.int 1)]] 0) k =
          dictGet (hGet [[("a", Value.int 1)]] 0) k)) :=
  ⟨by decide, rfl,
    construction_adopts_nonempty_mapping.1 [("a", anyFactory)]
      [[("a", Value.int 1)]] [[("a", Value.int 1)]] 0 0
      (by decide) (by simp) (by simp) rfl⟩


/-- C4 counterexample: for a negated clause with a no-qualifier exact
instant, the claim predicts a server-side exact-match entry and no local
predicate; the compiler instead emits a local inequality predicate
against the normalized instant and adds no server-side entry for the
field. -/
theorem negated_exact_date_clause :
    (compilePointQuery 0 .plant [("!updated_at", .str "2024-06-01T00:00:00.000Z")]).map
        (fun p => (p.filter, p.predicates)) =
      .ok ([("pointer_type", .str "Plant")],
        [.neqLit ⟨false, "updated_at"⟩ (.str "2024-06-01T00:00:00.000000Z")]) ∧
    dictGet [(("pointer_type" : String), Value.str "Plant")] "updated_at" = Option.none :=
  ⟨rfl, rfl⟩

/-- C4 amended: for every clause whose string value matches the date
grammar and whose instant expression the datetime parser accepts, the
compiler behaves as follows.  Without a qualifier and without negation,
the normalized dump of the computed instant becomes a server-side
filter entry and no predicate is emitted; without a qualifier but
negated, a local inequality predicate against the normalized instant is
emitted and no server-side entry is added; with a qualifier, a local
predicate comparing the record's parsed field value against the
computed instant is emitted (strictly-less for before, greater-or-equal
when negated; strictly-greater for after, less-or-equal when negated)
and no server-side entry is added. -/
theorem date_clause_compilation (now : Int) (props : List String) (rawKey : String)
    (s instant : String) (qual : Option Qual) (d : Int)
    (hmatch : rxdateMatch s = some (qual, instant))
    (hparse : parse_datetime now (.str instant) = .ok (some d)) :
    processClause now props rawKey (.str s) = .ok (
      match qual with
      | Option.none =>
        if (stripNeg rawKey).1 then
          .toPred (.neqLit ⟨ismetaOf props (stripNeg rawKey).2, (stripNeg rawKey).2⟩
            (.str (dump_datetime d)))
        else
          .toFilter (ismetaOf props (stripNeg rawKey).2) (stripNeg rawKey).2
            (.str (dump_datetime d))
      | some q => .toPred (.dateCmp ⟨ismetaOf props (stripNeg rawKey).2, (stripNeg rawKey).2⟩
          (opOfQual q (stripNeg rawKey).1) (some d))) := by
  rcases hsn : stripNeg rawKey with ⟨neg, key⟩
  simp only [processClause, hsn, hmatch, hparse, except_bind_ok, rxnumMatch_dump_none]
  cases qual with
  | none => cases neg <;> rfl
  | some q => rfl

/-- Witness for the amended C4: an after-qualified relative clause
yields a strictly-greater predicate; an exact ISO clause yields the
normalized server-side entry; and the before-now clause of C3 shows the
parser precondition is needed. -/
theorem date_clause_compilation_witness :
    rxdateMatch "after 3 days ago" = some (some .after, "3 days ago") ∧
    parse_datetime 1717200000000000 (.str "3 days ago") =
      .ok (some 1716940800000000) ∧
    processClause 1717200000000000 pointProps "updated_at" (.str "after 3 days ago") =
      .ok (.toPred (.dateCmp ⟨false, "updated_at"⟩ .gt (some 1716940800000000))) ∧
    processClause 1717200000000000 pointProps "!updated_at" (.str "before now") =
      .error (.valueError "time data does not match format") ∧
    rxdateMatch "2024-06-01T00:00:00.000Z" =
      some (Option.none, "2024-06-01T00:00:00.000Z") ∧
    processClause 0 pointProps "updated_at" (.str "2024-06-01T00:00:00.000Z") =
      .ok (.toFilter false "updated_at" (.str "2024-06-01T00:00:00.000000Z")) :=
  ⟨rfl, rfl,
    (date_clause_compilation 1717200000000000 pointProps "updated_at"
      "after 3 days ago" "3 days ago" (some .after) 1716940800000000 rfl rfl),
    rfl, rfl,
    (date_clause_compilation 0 pointProps "updated_at"
      "2024-06-01T00:00:00.000Z" "2024-06-01T00:00:00.000Z" Option.none
      1717200000000000 rfl rfl)⟩

/-- C5: every clause whose string value matches the numeric-threshold
grammar compiles to a local predicate that coerces the record's field
value to a number and compares it against the parsed literal, with
greater-or-equal for at least (strictly-less when negated) and
less-or-equal for at most (strictly-greater when negated). -/
theorem numeric_clause_compilation (now : Int) (props : List String) (rawKey : String)
    (s : String) (least : Bool) (num : ℚ)
    (hmatch : rxnumMatch s = some (least, num)) :
    processClause now props rawKey (.str s) =
      .ok (.toPred (.numCmp ⟨ismetaOf props (stripNeg rawKey).2, (stripNeg rawKey).2⟩
        (opOfNum least (stripNeg rawKey).1) num)) ∧
    (∀ (g : Getter) (v fv : Value) (q : ℚ) (op : CmpOp),
      getField g v = .ok fv → pyFloat fv = .ok q →
      evalPred now (.numCmp g op num) v = .ok (evalCmpQ op q num)) ∧
    opOfNum true false = .ge ∧ opOfNum true true = .lt ∧
    opOfNum false false = .le ∧ opOfNum false true = .gt := by
  refine ⟨?_, ?_, rfl, rfl, rfl, rfl⟩
  · rcases hsn : stripNeg rawKey with ⟨neg, key⟩
    simp only [processClause, hsn, rxdateMatch_none_of_rxnumMatch s _ hmatch, hmatch]
  · intro g v fv q op h1 h2
    simp only [evalPred, h1, h2, except_bind_ok]

/-- Witness for C5 at the clause (radius, at least 5): the emitted
predicate keeps a record with radius 5.0 and excludes radius 4.999. -/
theorem numeric_clause_compilation_witness :
    rxnumMatch "at least 5" = some (true, 5) ∧
    processClause 0 pointProps "radius" (.str "at least 5") =
      .ok (.toPred (.numCmp ⟨false, "radius"⟩ .ge 5)) ∧
    evalPred 0 (.numCmp ⟨false, "radius"⟩ .ge 5) (.dict [("radius", .float 5)]) =
      .ok true ∧
    evalPred 0 (.numCmp ⟨false, "radius"⟩ .ge 5)
      (.dict [("radius", .float (mkRat 4999 1000))]) = .ok false := by
  refine ⟨by decide, ?_, rfl, rfl⟩
  exact (numeric_clause_compilation 0 pointProps "radius" "at least 5" true 5
    (by decide)).1

/-- C1: the executor is claimed to apply every local predicate to each
typed record and exclude exactly the records failing one.  The code
cannot do any of this: PointQuery.__init__ never assigns self.factory,
so execute raises AttributeError on the first record of any non-empty
search result; were the factory attribute supplied, the predicate
getters subscript the typed record, which defines no item access, so
the first predicate call raises TypeError; and the predicate loop's
only conditional statement is a no-op continue, so even predicates that
evaluate cleanly never exclude anything - a record that fails the
predicate is still appended. -/
theorem execute_never_filters :
    (do
      let plan ← compilePointQuery 0 .point [("radius", .str "at least 5")]
      executePlan 0 plan [sampleRawPoint]) = .error (.attributeError "factory") ∧
    (compilePointQuery 0 .point [("radius", .str "at least 5")]).map
      (fun p => p.factoryAttr.isNone) = .ok true ∧
    executeLoop 0 (runPointFactory 0) [.numCmp ⟨false, "radius"⟩ .ge 5] [sampleRawPoint] =
      .error (.typeError "object is not subscriptable") ∧
    evalPred 0 (.numCmp ⟨false, "radius"⟩ .ge 5)
      (.dict [("radius", .float (mkRat 4999 1000))]) = .ok false ∧
    executeLoop 0 (fun v => .ok v) [.numCmp ⟨false, "radius"⟩ .ge 5]
      [.dict [("radius", .float (mkRat 4999 1000))]] =
      .ok [.dict [("radius", .float (mkRat 4999 1000))]] :=
  ⟨rfl, rfl, rfl, rfl, rfl⟩

end MLH
